import Mathlib

/-!
Verification of the query-construction and scoping engine of the
`kb-store-postgres` vector store (`src/lib/index.ts`).

The embedding models:
* JavaScript scalar/array values (`JsValue`), with JS numbers represented
  by their canonical decimal rendering (`JsNum`);
* `sql-template-strings` statements as lists of fragments, where a fragment
  is either raw SQL text or a bound parameter (`Frag`); the rendered text
  (`stmtText`) shows each parameter as a `$n` placeholder and `stmtValues`
  collects the bound values in order;
* each statement builder of `PostgresVectorStore` (`createScopeFilter`,
  `createInsertQuery`, and the statements built inline by
  `getDocumentByReference`, `query`, `append`, `delete`, `createDocument`,
  `getDocuments`);
* the executor (`pg` pool) at its interface boundary: a function from a
  statement to an `Except`-wrapped list of rows, plus a model of the
  engine's evaluation of the generated distance query.
-/

/-- A JavaScript number, represented by its canonical string rendering
(the result of JS `String(x)`); the store treats vector components as
opaque numbers and only ever renders or re-parses them. -/
structure JsNum where
  render : String
deriving DecidableEq, Repr

/-- A JavaScript value as it can appear in a scope mapping, a record field,
or a bound statement parameter. `vundef` is JS `undefined`. -/
inductive JsValue where
  | vnull
  | vundef
  | vbool (b : Bool)
  | vnum (n : JsNum)
  | vstr (s : String)
  | varr (elems : List JsValue)
deriving Repr

/-- JS `value ?? null` (nullish coalescing with `null`): maps `undefined`
and `null` to `null` and leaves every other value unchanged.
From `#createScopeFilter`: `${value ?? null}`. -/
def nullCoalesce : JsValue → JsValue
  | JsValue.vnull => JsValue.vnull
  | JsValue.vundef => JsValue.vnull
  | v => v

mutual

/-- The string contribution of one element to JS `Array.prototype.join`:
`null`/`undefined` render as the empty string, every other value as
`String(x)` (an array renders as its own comma-join). -/
def jsJoinElem : JsValue → String
  | JsValue.vnull => ""
  | JsValue.vundef => ""
  | JsValue.vbool b => if b then "true" else "false"
  | JsValue.vnum n => n.render
  | JsValue.vstr s => s
  | JsValue.varr xs => jsJoinList xs

/-- JS `array.join(",")`. -/
def jsJoinList : List JsValue → String
  | [] => ""
  | [x] => jsJoinElem x
  | x :: y :: rest => jsJoinElem x ++ "," ++ jsJoinList (y :: rest)

end

/-- `createIdentifier` from `src/lib/index.ts`:
`'"' + str.replace(/"/g, '""') + '"'`. -/
def createIdentifier (str : String) : String :=
  "\"" ++ str.replace "\"" "\"\"" ++ "\""

/-- One fragment of a `sql-template-strings` statement: raw SQL text or a
bound parameter.  `SQL`-tagged templates contribute raw text around each
interpolated value, which becomes a bound parameter; `.append(string)`
contributes raw text. -/
inductive Frag where
  | raw (s : String)
  | param (v : JsValue)

/-- A built statement: the ordered list of its fragments. -/
abbrev Stmt := List Frag

/-- Number of bound parameters in a statement. -/
def paramCount : Stmt → Nat
  | [] => 0
  | Frag.raw _ :: rest => paramCount rest
  | Frag.param _ :: rest => paramCount rest + 1

/-- Rendered statement text, with the parameters numbered `n+1`,
`n+2`, ... (the library renders the k-th bound value as `$k`). -/
def stmtTextAux : Stmt → Nat → String
  | [], _ => ""
  | Frag.raw s :: rest, n => s ++ stmtTextAux rest n
  | Frag.param _ :: rest, n => "$" ++ toString (n + 1) ++ stmtTextAux rest (n + 1)

/-- The statement's SQL text as sent to the executor (`statement.text`). -/
def stmtText (s : Stmt) : String := stmtTextAux s 0

/-- The statement's bound values in order (`statement.values`). -/
def stmtValues (s : Stmt) : List JsValue :=
  s.filterMap (fun f => match f with | Frag.param v => some v | _ => none)

/-- The `$n` placeholder the library renders for the n-th bound value. -/
def placeholder (n : Nat) : String := "$" ++ toString n

/-- A scope mapping, in iteration order: `Object.entries(scope)`. -/
abbrev ScopeMap := List (String × JsValue)

/-- `#createScopeFilter`, entry loop: for each entry, a leading ` AND `
separator (skipped for the first entry), the quoted column name appended as
raw text, and the template `` ` = ${value ?? null}` `` contributing
`" = "`, the bound value, and an empty trailing raw part. -/
def scopeFilterFrags : ScopeMap → Bool → Stmt
  | [], _ => []
  | (k, v) :: rest, first =>
    (if first then [] else [Frag.raw " AND "]) ++
      [Frag.raw (createIdentifier k), Frag.raw " = ",
       Frag.param (nullCoalesce v), Frag.raw ""] ++
      scopeFilterFrags rest false

/-- `#createScopeFilter` from `src/lib/index.ts`: returns the empty
template ``SQL` ` `` when the mapping has no entries, otherwise the
AND-joined equality fragments built from the entry loop. -/
def createScopeFilter (scope : ScopeMap) : Stmt :=
  if scope.isEmpty then [Frag.raw ""]
  else Frag.raw "" :: scopeFilterFrags scope true

/-- Specification rendering of the scope filter's clauses: the clause for
an entry with key `k`, when the preceding text already holds `n` bound
parameters, is `createIdentifier k ++ " = " ++ placeholder (n+1)`.  Built
only from quoted identifiers and parameter placeholders — never from a
value. -/
def scopeClauses : Nat → ScopeMap → List String
  | _, [] => []
  | n, (k, _) :: rest =>
    (createIdentifier k ++ " = " ++ placeholder (n + 1)) :: scopeClauses (n + 1) rest

/-- Join a list of strings with a separator, as JS `array.join(sep)`. -/
def joinSep (sep : String) : List String → String
  | [] => ""
  | [x] => x
  | x :: y :: rest => x ++ sep ++ joinSep sep (y :: rest)

/-- Concatenation of clauses each preceded by the ` AND ` separator. -/
def andConcat : List String → String
  | [] => ""
  | c :: cs => " AND " ++ c ++ andConcat cs

/-- Lookup of a key in a JS record (assoc list in property order). -/
def lookupRecord (r : ScopeMap) (k : String) : Option JsValue :=
  (r.find? (fun kv => kv.1 == k)).map Prod.snd

/-- JS object spread `{...a, ...b}` on records with unique keys: the result
has `a`'s keys first in `a`'s order (each taking `b`'s value when `b` also
has the key), followed by the keys of `b` not present in `a`, in `b`'s
order.  From `#createInsertQuery`: `{...scope, ...object}`. -/
def recordMerge (a b : ScopeMap) : ScopeMap :=
  a.map (fun kv => (kv.1, (lookupRecord b kv.1).getD kv.2)) ++
    b.filter (fun kv => !(a.any (fun kv2 => kv2.1 == kv.1)))

/-- Per-value serialization in `#createInsertQuery`:
`Array.isArray(values[i]) ? `[${values[i].join(",")}]` : values[i]` —
an array value becomes the string `"[v1,...,vn]"`, any other value is
bound unchanged. -/
def serializeValue : JsValue → JsValue
  | JsValue.varr xs => JsValue.vstr ("[" ++ jsJoinList xs ++ "]")
  | v => v

/-- `mapFunction ? mapFunction(key) : key`. -/
def applyMap (mapFunction : Option (String → String)) (k : String) : String :=
  match mapFunction with
  | some f => f k
  | none => k

/-- The VALUES-row loop of `#createInsertQuery`: per value the template
`` `${serialized}` `` (empty raw text around one bound parameter), with a
raw `", "` separator after every value except the last. -/
def insertValuesFrags : List JsValue → Stmt
  | [] => []
  | [v] => [Frag.raw "", Frag.param (serializeValue v), Frag.raw ""]
  | v :: w :: rest =>
    [Frag.raw "", Frag.param (serializeValue v), Frag.raw "", Frag.raw ", "] ++
      insertValuesFrags (w :: rest)

/-- `#createInsertQuery` from `src/lib/index.ts`: merges scope and record
via object spread, quotes each (mapped) column name, joins the quoted
column names with `", "` as raw text, binds one serialized value per
column, and closes with `) RETURNING "id"`. -/
def createInsertQuery (table : String) (object : ScopeMap) (scope : ScopeMap)
    (mapFunction : Option (String → String)) : Stmt :=
  let fullObject := recordMerge scope object
  let columns := fullObject.map (fun kv => createIdentifier (applyMap mapFunction kv.1))
  [Frag.raw "INSERT INTO ", Frag.raw (createIdentifier table), Frag.raw " (",
   Frag.raw (joinSep ", " columns), Frag.raw ") VALUES ("] ++
  insertValuesFrags (fullObject.map Prod.snd) ++
  [Frag.raw ") RETURNING \"id\""]

/-- The `$n+1 ... $n+count` placeholder list. -/
def placeholders : Nat → Nat → List String
  | _, 0 => []
  | n, Nat.succ m => placeholder (n + 1) :: placeholders (n + 1) m

/-- Specification text of the generated INSERT: built only from quoted
identifiers, fixed keywords, and parameter placeholders — no data value
occurs in it. -/
def insertSpecText (table : String) (columns : List String) (count : Nat) : String :=
  "INSERT INTO " ++ createIdentifier table ++ " (" ++ joinSep ", " columns ++
    ") VALUES (" ++ joinSep ", " (placeholders 0 count) ++ ") RETURNING \"id\""

/-- Immutable store configuration, as held by `PostgresVectorStore` after
constructor defaulting.  `algorithm` is kept as a string so that the
unsupported-algorithm path of `query` is representable. -/
structure StoreConfig where
  algorithm : String
  mapEmbeddingColumn : String → String
  documentScope : ScopeMap
  embeddingScope : ScopeMap
  documentTable : String
  embeddingTable : String

/-- An embedding as consumed by `append`: text plus numeric vector. -/
structure Embedding where
  text : String
  vector : List JsNum

/-- The record inserted for one embedding: `{ ...embedding, document }`
(the embedding's own fields, then the owning document key). -/
def embeddingRecord (e : Embedding) (document : JsValue) : ScopeMap :=
  [("text", JsValue.vstr e.text),
   ("vector", JsValue.varr (e.vector.map JsValue.vnum)),
   ("document", document)]

/-- The statement built by `getDocumentByReference`: base SELECT with the
primary-key equality, then ` AND ` and the scope filter when the filter's
text is non-empty. -/
def getDocumentByReferenceStmt (cfg : StoreConfig) (reference : JsValue) : Stmt :=
  let base : Stmt :=
    [Frag.raw "SELECT * FROM ", Frag.raw (createIdentifier cfg.documentTable),
     Frag.raw " WHERE \"id\" = ", Frag.param reference, Frag.raw ""]
  let scopeFilter := createScopeFilter cfg.documentScope
  if 0 < (stmtText scopeFilter).length then base ++ [Frag.raw " AND "] ++ scopeFilter
  else base

/-- The statement built by `delete`: DELETE by primary key, then ` AND `
and the document scope filter when the filter's text is non-empty. -/
def deleteStmt (cfg : StoreConfig) (document : JsValue) : Stmt :=
  let base : Stmt :=
    [Frag.raw "DELETE FROM ", Frag.raw (createIdentifier cfg.documentTable),
     Frag.raw " WHERE \"id\" = ", Frag.param document, Frag.raw ""]
  let scopeFilter := createScopeFilter cfg.documentScope
  if 0 < (stmtText scopeFilter).length then base ++ [Frag.raw " AND "] ++ scopeFilter
  else base

/-- The statement built by `getDocuments`: SELECT all, with ` WHERE ` and
the document scope filter when the filter's text is non-empty. -/
def getDocumentsStmt (cfg : StoreConfig) : Stmt :=
  let scopeFilter := createScopeFilter cfg.documentScope
  let base : Stmt :=
    [Frag.raw "SELECT * FROM ", Frag.raw (createIdentifier cfg.documentTable)]
  if 0 < (stmtText scopeFilter).length then base ++ [Frag.raw " WHERE "] ++ scopeFilter
  else base

/-- The statement built by `createDocument`:
`#createInsertQuery(documentTable, document, documentScope)`. -/
def createDocumentStmt (cfg : StoreConfig) (document : ScopeMap) : Stmt :=
  createInsertQuery cfg.documentTable document cfg.documentScope none

/-- The statement built for one embedding inside `append`:
`#createInsertQuery(embeddingTable, {...embedding, document},
embeddingScope, mapEmbeddingColumn)`. -/
def appendInsertStmt (cfg : StoreConfig) (document : JsValue) (e : Embedding) : Stmt :=
  createInsertQuery cfg.embeddingTable (embeddingRecord e document) cfg.embeddingScope
    (some cfg.mapEmbeddingColumn)

/-- The operator lookup table of `query`:
`{ l2: "<->", l1: "<+>", negative_inner_product: "<#>", cosine: "<=>" }[algorithm]`,
`none` for any other key (JS yields `undefined`). -/
def operatorFor : String → Option String
  | "l2" => some "<->"
  | "l1" => some "<+>"
  | "negative_inner_product" => some "<#>"
  | "cosine" => some "<=>"
  | _ => none

/-- JS `vector.join(",")` for a numeric vector: the elements' renderings
separated by commas. -/
def joinRenders : List JsNum → String
  | [] => ""
  | [n] => n.render
  | n :: m :: rest => n.render ++ "," ++ joinRenders (m :: rest)

/-- The query-vector literal of `query`: `"[" + vector.join(",") + "]"`. -/
def serializeVector (v : List JsNum) : String :=
  "[" ++ joinRenders v ++ "]"

/-- The document allow-list filter of `query`:
``SQL` `.append(createIdentifier(docCol)).append(SQL` = ANY(${documents})`)``. -/
def queryDocFilterFrags (cfg : StoreConfig) (documents : List JsValue) : Stmt :=
  [Frag.raw "", Frag.raw (createIdentifier (cfg.mapEmbeddingColumn "document")),
   Frag.raw " = ANY(", Frag.param (JsValue.varr documents), Frag.raw ")"]

/-- The filter list of `query`: the embedding scope filter when its text is
non-empty, then the allow-list filter when `documents` was supplied. -/
def queryFilters (cfg : StoreConfig) (documents : Option (List JsValue)) : List Stmt :=
  let scopeFilter := createScopeFilter cfg.embeddingScope
  (if 0 < (stmtText scopeFilter).length then [scopeFilter] else []) ++
    (match documents with
     | some docs => [queryDocFilterFrags cfg docs]
     | none => [])

/-- The filter loop of `query`: every filter after the first is preceded by
` AND `. -/
def andJoinFrags : List Stmt → Stmt
  | [] => []
  | [f] => f
  | f :: g :: rest => f ++ [Frag.raw " AND "] ++ andJoinFrags (g :: rest)

/-- The SELECT statement built by `query` once the operator is known:
quoted projection columns, the distance expression with the operator as raw
text and the serialized query vector bound, composed filters, ordering and
pagination. -/
def queryStmt (cfg : StoreConfig) (op : String) (vector : List JsNum)
    (documents : Option (List JsValue)) (limit offset : Nat) : Stmt :=
  let docCol := cfg.mapEmbeddingColumn "document"
  let textCol := cfg.mapEmbeddingColumn "text"
  let vectorCol := cfg.mapEmbeddingColumn "vector"
  let filters := queryFilters cfg documents
  [Frag.raw "SELECT ",
   Frag.raw (createIdentifier docCol), Frag.raw " AS document, ",
   Frag.raw (createIdentifier textCol), Frag.raw " AS text, ",
   Frag.raw (createIdentifier vectorCol), Frag.raw " AS vector, ",
   Frag.raw "", Frag.raw (createIdentifier vectorCol),
   Frag.raw (" " ++ op ++ " "),
   Frag.raw "", Frag.param (JsValue.vstr (serializeVector vector)), Frag.raw "",
   Frag.raw " AS distance ",
   Frag.raw "FROM ", Frag.raw (createIdentifier cfg.embeddingTable)] ++
  (if filters.isEmpty then [] else [Frag.raw " WHERE "] ++ andJoinFrags filters) ++
  [Frag.raw " ORDER BY distance ASC"] ++
  [Frag.raw " LIMIT ", Frag.param (JsValue.vnum (JsNum.mk (toString limit))),
   Frag.raw " OFFSET ", Frag.param (JsValue.vnum (JsNum.mk (toString offset))),
   Frag.raw ""]

/-- Specification text of the `getDocumentByReference` statement: only
quoted identifiers, fixed keywords and placeholders occur. -/
def docRefSpecText (cfg : StoreConfig) : String :=
  "SELECT * FROM " ++ createIdentifier cfg.documentTable ++ " WHERE \"id\" = " ++
    placeholder 1 ++
    (if cfg.documentScope.isEmpty then ""
     else " AND " ++ joinSep " AND " (scopeClauses 1 cfg.documentScope))

/-- Specification text of the `delete` statement. -/
def deleteSpecText (cfg : StoreConfig) : String :=
  "DELETE FROM " ++ createIdentifier cfg.documentTable ++ " WHERE \"id\" = " ++
    placeholder 1 ++
    (if cfg.documentScope.isEmpty then ""
     else " AND " ++ joinSep " AND " (scopeClauses 1 cfg.documentScope))

/-- Specification text of the `getDocuments` statement. -/
def getDocumentsSpecText (cfg : StoreConfig) : String :=
  "SELECT * FROM " ++ createIdentifier cfg.documentTable ++
    (if cfg.documentScope.isEmpty then ""
     else " WHERE " ++ joinSep " AND " (scopeClauses 0 cfg.documentScope))

/-- Specification text of the `query` statement: only quoted identifiers,
fixed keywords, the distance operator token, and placeholders occur; the
serialized vector, scope values, allow-list, limit and offset are all
placeholders.  `k` abbreviates the embedding-scope entry count. -/
def querySpecText (cfg : StoreConfig) (op : String) (docsPresent : Bool) : String :=
  let k := cfg.embeddingScope.length
  let docCol := createIdentifier (cfg.mapEmbeddingColumn "document")
  let docsPart := docCol ++ " = ANY(" ++ placeholder (k + 2) ++ ")"
  let whereText :=
    if cfg.embeddingScope.isEmpty then
      if docsPresent then " WHERE " ++ docsPart else ""
    else
      " WHERE " ++ joinSep " AND " (scopeClauses 1 cfg.embeddingScope) ++
        (if docsPresent then " AND " ++ docsPart else "")
  let lim := k + (if docsPresent then 1 else 0) + 2
  "SELECT " ++ docCol ++ " AS document, " ++
    createIdentifier (cfg.mapEmbeddingColumn "text") ++ " AS text, " ++
    createIdentifier (cfg.mapEmbeddingColumn "vector") ++ " AS vector, " ++
    createIdentifier (cfg.mapEmbeddingColumn "vector") ++ (" " ++ op ++ " ") ++
    placeholder 1 ++ " AS distance " ++ "FROM " ++
    createIdentifier cfg.embeddingTable ++ whereText ++
    " ORDER BY distance ASC" ++ " LIMIT " ++ placeholder lim ++
    " OFFSET " ++ placeholder (lim + 1)

/-- Split a character list at every comma (the commas are dropped). -/
def splitCommas : List Char → List (List Char)
  | [] => [[]]
  | c :: rest =>
    if c = ',' then [] :: splitCommas rest
    else
      match splitCommas rest with
      | t :: ts => (c :: t) :: ts
      | [] => [[c]]

/-- Strip one optional leading sign character. -/
def stripSign (cs : List Char) : List Char :=
  match cs with
  | [] => []
  | c :: r => if c = '+' || c = '-' then r else c :: r

/-- The digits of a JSON exponent part, after the `e`/`E`: an optional sign
followed by at least one digit. -/
def checkExpDigits (cs : List Char) : Bool :=
  !(stripSign cs).isEmpty && (stripSign cs).all Char.isDigit

/-- The optional exponent part of a JSON number (possibly absent). -/
def checkExpPart : List Char → Bool
  | [] => true
  | c :: rest => (c = 'e' || c = 'E') && checkExpDigits rest

/-- The optional fraction part of a JSON number, followed by the optional
exponent. -/
def checkFrac : List Char → Bool
  | [] => checkExpPart []
  | c :: rest =>
    if c = '.' then
      !(rest.takeWhile Char.isDigit).isEmpty &&
        checkExpPart (rest.dropWhile Char.isDigit)
    else checkExpPart (c :: rest)

/-- The integer part of a JSON number (`0`, or a nonzero digit followed by
digits), followed by the optional fraction/exponent parts. -/
def checkIntPart : List Char → Bool
  | [] => false
  | c :: rest =>
    if c = '0' then checkFrac rest
    else c.isDigit && checkFrac (rest.dropWhile Char.isDigit)

/-- The JSON number grammar: optional leading minus, then integer,
fraction and exponent parts. -/
def isJsonNumberToken : List Char → Bool
  | [] => false
  | c :: rest => if c = '-' then checkIntPart rest else checkIntPart (c :: rest)

/-- Comma-intercalation of token character lists. -/
def intercalateCommas : List (List Char) → List Char
  | [] => []
  | [t] => t
  | t :: u :: rest => t ++ ',' :: intercalateCommas (u :: rest)

/-- Model of `JSON.parse` restricted to its use in `query` (char level):
parsing the text of a flat JSON array of numbers (as produced for a
`pgvector` column) back into the list of numbers; `none` on any other
input. -/
def jsonParseNumArrayChars : List Char → Option (List JsNum)
  | '[' :: rest =>
    if rest.getLast? = some ']' then
      if rest.dropLast.isEmpty then some []
      else
        if (splitCommas rest.dropLast).all (fun t => isJsonNumberToken t) then
          some ((splitCommas rest.dropLast).map (fun t => JsNum.mk (String.mk t)))
        else none
    else none
  | _ => none

/-- Model of `JSON.parse(row.vector)` as used by `query`'s row decoding. -/
def jsonParseNumArray (s : String) : Option (List JsNum) :=
  jsonParseNumArrayChars s.data

/-- The executor at its interface boundary: a parameterized statement in,
an `Except`-wrapped ordered list of rows out (a rejected promise is the
`error` case).  The row type varies with the statement's projection. -/
abbrev Exec (ρ : Type) := Stmt → Except String (List ρ)

/-- Model of `AsyncTransform.from` applied to a promise of an
already-computed row array (`pool.query(stmt).then(res => res.rows.map(...))`):
the stream is backed by the complete mapped row array, which exists before
the caller pulls the first element; iteration only walks `buffer` in
order. -/
structure AsyncStream (α : Type) where
  buffer : List α

/-- `getDocumentByReference`: executes the statement and returns
`result.rows[0]` — JS `undefined` (here `none`) when no row matched. -/
def getDocumentByReferenceRun {α : Type} (cfg : StoreConfig) (exec : Exec α)
    (reference : JsValue) : Except String (Option α) :=
  (exec (getDocumentByReferenceStmt cfg reference)).map List.head?

/-- `getDocuments`: executes the statement and wraps the full row array in
a stream. -/
def getDocumentsRun {α : Type} (cfg : StoreConfig) (exec : Exec α) :
    Except String (AsyncStream α) :=
  (exec (getDocumentsStmt cfg)).map AsyncStream.mk

/-- `delete`: executes the statement, discarding the result rows. -/
def deleteRun (cfg : StoreConfig) (exec : Exec JsValue) (document : JsValue) :
    Except String Unit :=
  (exec (deleteStmt cfg document)).map (fun _ => ())

/-- `createDocument`: executes the insert,
`assert(result.rows.length === 1, "Expected one row to be returned")`, and
returns `result.rows[0].id` (rows are modelled by their `id` column, the
only column the statement returns). -/
def createDocumentRun (cfg : StoreConfig) (exec : Exec JsValue)
    (document : ScopeMap) : Except String JsValue :=
  (exec (createDocumentStmt cfg document)).bind fun rows =>
    match rows with
    | [r] => Except.ok r
    | _ => Except.error "Expected one row to be returned"

/-- `append`: one insert per embedding, sequentially in input order; each
`await pool.query(...)` propagates an executor error and otherwise ignores
the returned rows. -/
def appendRun (cfg : StoreConfig) (exec : Exec JsValue) (document : JsValue) :
    List Embedding → Except String Unit
  | [] => Except.ok ()
  | e :: rest =>
    match exec (appendInsertStmt cfg document e) with
    | Except.error msg => Except.error msg
    | Except.ok _ => appendRun cfg exec document rest

/-- The statements `append` actually issues, in order (the loop stops after
a failing statement). -/
def appendTrace (cfg : StoreConfig) (exec : Exec JsValue) (document : JsValue) :
    List Embedding → List Stmt
  | [] => []
  | e :: rest =>
    match exec (appendInsertStmt cfg document e) with
    | Except.error _ => [appendInsertStmt cfg document e]
    | Except.ok _ =>
      appendInsertStmt cfg document e :: appendTrace cfg exec document rest

/-- The embeddings whose independent insert statement succeeded before the
first failure: with no transaction wrapping these rows stay persisted. -/
def appendPersisted (cfg : StoreConfig) (exec : Exec JsValue) (document : JsValue) :
    List Embedding → List Embedding
  | [] => []
  | e :: rest =>
    match exec (appendInsertStmt cfg document e) with
    | Except.error _ => []
    | Except.ok _ => e :: appendPersisted cfg exec document rest

/-- A stored embedding row as the engine sees it for the distance query:
document key, text, and the vector column's textual representation. -/
structure EngineRow where
  document : JsValue
  text : String
  vectorText : String

/-- A row produced by the distance query before decoding. -/
structure ResultRow where
  document : JsValue
  text : String
  vectorText : String
  distance : Rat

instance : IsTotal ResultRow (fun a b => a.distance ≤ b.distance) :=
  ⟨fun a b => le_total a.distance b.distance⟩

instance : IsTrans ResultRow (fun a b => a.distance ≤ b.distance) :=
  ⟨fun _ _ _ h1 h2 => le_trans h1 h2⟩

/-- The backing engine's evaluation of the generated distance query, at the
external interface boundary the spec fixes for it: the WHERE clause is an
opaque row predicate (`rowPred`), the computed `distance` column an opaque
per-row rational (`distOf`); the engine orders by the distance ascending
(`ORDER BY distance ASC`), then skips `OFFSET` rows and finally returns at
most `LIMIT` rows. -/
def engineDistanceQuery (table : List EngineRow) (rowPred : EngineRow → Bool)
    (distOf : EngineRow → Rat) (limit offset : Nat) : List ResultRow :=
  ((((table.filter rowPred).map
      (fun r => ResultRow.mk r.document r.text r.vectorText (distOf r))).insertionSort
      (fun a b => a.distance ≤ b.distance)).drop offset).take limit

/-- One decoded element of `query`'s result stream: `JSON.parse` applied to
the vector column (modelled partially), the other columns copied. -/
structure QueryResult where
  text : String
  vector : Option (List JsNum)
  distance : Rat
  document : JsValue

/-- `query`'s row decoding:
`{ text: row.text, vector: JSON.parse(row.vector), distance: row.distance,
document: row.document }`. -/
def decodeResultRow (r : ResultRow) : QueryResult :=
  QueryResult.mk r.text (jsonParseNumArray r.vectorText) r.distance r.document

/-- `query`, end to end: resolve the operator (the `assert` raises the
configuration error for an unsupported algorithm before any statement is
issued), build the statement, let the engine evaluate it, decode the rows,
and expose them as a stream.  The second component is the list of
statements actually issued to the executor. -/
def queryFull (cfg : StoreConfig) (table : List EngineRow)
    (rowPred : EngineRow → Bool) (distOf : EngineRow → Rat) (vector : List JsNum)
    (documents : Option (List JsValue)) (limit offset : Nat) :
    Except String (AsyncStream QueryResult) × List Stmt :=
  match operatorFor cfg.algorithm with
  | none => (Except.error ("Unsupported distance algorithm: " ++ cfg.algorithm), [])
  | some op =>
    (Except.ok (AsyncStream.mk
        ((engineDistanceQuery table rowPred distOf limit offset).map decodeResultRow)),
      [queryStmt cfg op vector documents limit offset])

theorem stmtTextAux_append (a b : Stmt) (n : Nat) :
    stmtTextAux (a ++ b) n = stmtTextAux a n ++ stmtTextAux b (n + paramCount a) := by
  induction a generalizing n with
  | nil => simp [stmtTextAux, paramCount, String.empty_append]
  | cons f rest ih =>
    cases f with
    | raw s =>
      simp only [List.cons_append, List.append_eq, stmtTextAux, paramCount, ih,
        String.append_assoc]
    | param v =>
      simp only [List.cons_append, List.append_eq, stmtTextAux, paramCount, ih,
        String.append_assoc]
      have h : n + (paramCount rest + 1) = n + 1 + paramCount rest := by omega
      rw [h]

theorem stmtValues_append (a b : Stmt) :
    stmtValues (a ++ b) = stmtValues a ++ stmtValues b := by
  simp [stmtValues]

theorem joinSep_cons_eq_andConcat (c : String) (cs : List String) :
    joinSep " AND " (c :: cs) = c ++ andConcat cs := by
  induction cs generalizing c with
  | nil => simp [joinSep, andConcat, String.append_empty]
  | cons c' cs' ih =>
    simp [joinSep, andConcat, ih, String.append_assoc]

theorem scopeFilterFrags_text (scope : ScopeMap) (n : Nat) :
    stmtTextAux (scopeFilterFrags scope false) n =
      andConcat (scopeClauses n scope) := by
  induction scope generalizing n with
  | nil => simp [scopeFilterFrags, scopeClauses, stmtTextAux, andConcat]
  | cons kv rest ih =>
    obtain ⟨k, v⟩ := kv
    simp only [scopeFilterFrags, if_neg Bool.false_ne_true, scopeClauses, andConcat,
      List.cons_append, List.nil_append, List.append_eq, List.append_assoc,
      stmtTextAux, ih, placeholder, String.append_assoc, String.empty_append]

theorem scopeFilterFrags_text_first (scope : ScopeMap) (n : Nat) :
    stmtTextAux (scopeFilterFrags scope true) n =
      joinSep " AND " (scopeClauses n scope) := by
  cases scope with
  | nil => simp [scopeFilterFrags, scopeClauses, joinSep, stmtTextAux]
  | cons kv rest =>
    obtain ⟨k, v⟩ := kv
    simp only [scopeFilterFrags, if_pos rfl, scopeClauses, List.cons_append,
      List.nil_append, List.append_eq, List.append_assoc, stmtTextAux,
      scopeFilterFrags_text, joinSep_cons_eq_andConcat, placeholder,
      String.append_assoc, String.empty_append]

theorem scopeFilterFrags_values (scope : ScopeMap) (first : Bool) :
    stmtValues (scopeFilterFrags scope first) =
      scope.map (fun kv => nullCoalesce kv.2) := by
  induction scope generalizing first with
  | nil => simp [scopeFilterFrags, stmtValues]
  | cons kv rest ih =>
    obtain ⟨k, v⟩ := kv
    cases first <;>
      simp [scopeFilterFrags, stmtValues, List.filterMap_append, ← ih false,
        stmtValues]

theorem createScopeFilter_text (scope : ScopeMap) :
    stmtText (createScopeFilter scope) = joinSep " AND " (scopeClauses 0 scope) := by
  cases scope with
  | nil => simp [createScopeFilter, stmtText, stmtTextAux, scopeClauses, joinSep]
  | cons kv rest =>
    simp only [createScopeFilter, List.isEmpty_cons, Bool.false_eq_true, if_false,
      stmtText]
    rw [show stmtTextAux (Frag.raw "" :: scopeFilterFrags (kv :: rest) true) 0
        = "" ++ stmtTextAux (scopeFilterFrags (kv :: rest) true) 0 from rfl]
    rw [scopeFilterFrags_text_first, String.empty_append]

theorem createScopeFilter_values (scope : ScopeMap) :
    stmtValues (createScopeFilter scope) = scope.map (fun kv => nullCoalesce kv.2) := by
  cases scope with
  | nil => simp [createScopeFilter, stmtValues]
  | cons kv rest =>
    simp only [createScopeFilter, List.isEmpty_cons, Bool.false_eq_true, if_false,
      stmtValues, List.filterMap_cons]
    exact scopeFilterFrags_values (kv :: rest) true

theorem insertValuesFrags_text (vs : List JsValue) (n : Nat) :
    stmtTextAux (insertValuesFrags vs) n = joinSep ", " (placeholders n vs.length) := by
  induction vs generalizing n with
  | nil => simp [insertValuesFrags, placeholders, joinSep, stmtTextAux]
  | cons v rest ih =>
    cases rest with
    | nil =>
      simp [insertValuesFrags, placeholders, joinSep, stmtTextAux, placeholder,
        String.append_empty, String.empty_append, String.append_assoc]
    | cons w rest' =>
      simp only [insertValuesFrags, List.cons_append, List.nil_append, List.append_eq,
        stmtTextAux, ih, List.length_cons, placeholders, placeholder, joinSep,
        String.append_assoc, String.empty_append]

theorem insertValuesFrags_values (vs : List JsValue) :
    stmtValues (insertValuesFrags vs) = vs.map serializeValue := by
  induction vs with
  | nil => simp [insertValuesFrags, stmtValues]
  | cons v rest ih =>
    cases rest with
    | nil => simp [insertValuesFrags, stmtValues]
    | cons w rest' =>
      simp only [insertValuesFrags, List.map_cons]
      rw [show ([Frag.raw "", Frag.param (serializeValue v), Frag.raw "", Frag.raw ", "] ++
          insertValuesFrags (w :: rest') : Stmt)
        = [Frag.raw "", Frag.param (serializeValue v), Frag.raw "", Frag.raw ", "] ++
          insertValuesFrags (w :: rest') from rfl]
      rw [stmtValues_append, ih]
      rfl

theorem createInsertQuery_text (table : String) (object scope : ScopeMap)
    (mapFunction : Option (String → String)) :
    stmtText (createInsertQuery table object scope mapFunction) =
      insertSpecText table
        ((recordMerge scope object).map (fun kv => createIdentifier (applyMap mapFunction kv.1)))
        (recordMerge scope object).length := by
  show stmtTextAux _ 0 = _
  rw [createInsertQuery]
  rw [stmtTextAux_append, stmtTextAux_append]
  simp only [stmtTextAux, paramCount, insertValuesFrags_text, insertSpecText,
    List.length_map, String.append_assoc, String.append_empty, String.empty_append]

theorem createInsertQuery_values (table : String) (object scope : ScopeMap)
    (mapFunction : Option (String → String)) :
    stmtValues (createInsertQuery table object scope mapFunction) =
      (recordMerge scope object).map (fun kv => serializeValue kv.2) := by
  rw [createInsertQuery]
  rw [stmtValues_append, stmtValues_append, insertValuesFrags_values]
  simp [stmtValues, List.map_map, Function.comp]

theorem paramCount_append (a b : Stmt) :
    paramCount (a ++ b) = paramCount a + paramCount b := by
  induction a with
  | nil => simp [paramCount]
  | cons f rest ih =>
    cases f with
    | raw s => simp [paramCount, ih]
    | param v => simp [paramCount, ih]; omega

theorem paramCount_scopeFilterFrags (scope : ScopeMap) (first : Bool) :
    paramCount (scopeFilterFrags scope first) = scope.length := by
  induction scope generalizing first with
  | nil => simp [scopeFilterFrags, paramCount]
  | cons kv rest ih =>
    obtain ⟨k, v⟩ := kv
    cases first <;>
      simp [scopeFilterFrags, paramCount_append, paramCount, ih]

theorem paramCount_createScopeFilter (scope : ScopeMap) :
    paramCount (createScopeFilter scope) = scope.length := by
  cases scope with
  | nil => simp [createScopeFilter, paramCount]
  | cons kv rest =>
    simp [createScopeFilter, paramCount, paramCount_scopeFilterFrags]

theorem createScopeFilter_textAux (scope : ScopeMap) (n : Nat) :
    stmtTextAux (createScopeFilter scope) n = joinSep " AND " (scopeClauses n scope) := by
  cases scope with
  | nil => simp [createScopeFilter, stmtTextAux, scopeClauses, joinSep]
  | cons kv rest =>
    simp only [createScopeFilter, List.isEmpty_cons, Bool.false_eq_true, if_false]
    rw [show stmtTextAux (Frag.raw "" :: scopeFilterFrags (kv :: rest) true) n
        = "" ++ stmtTextAux (scopeFilterFrags (kv :: rest) true) n from rfl]
    rw [scopeFilterFrags_text_first, String.empty_append]

theorem createScopeFilter_text_pos (k : String) (v : JsValue) (rest : ScopeMap) :
    0 < (stmtText (createScopeFilter ((k, v) :: rest))).length := by
  rw [createScopeFilter_text]
  have h1 : ("\"" : String).length = 1 := by decide
  rw [show scopeClauses 0 ((k, v) :: rest)
      = (createIdentifier k ++ " = " ++ placeholder 1) :: scopeClauses 1 rest from rfl]
  rw [joinSep_cons_eq_andConcat]
  simp only [String.length_append, createIdentifier]
  omega

theorem getDocumentByReferenceStmt_text (cfg : StoreConfig) (reference : JsValue) :
    stmtText (getDocumentByReferenceStmt cfg reference) = docRefSpecText cfg := by
  simp only [getDocumentByReferenceStmt, docRefSpecText]
  cases hsc : cfg.documentScope with
  | nil =>
    rw [if_neg (by simp [createScopeFilter, stmtText, stmtTextAux])]
    simp [stmtText, stmtTextAux, placeholder, String.append_assoc,
      String.append_empty, String.empty_append]
  | cons kv rest =>
    obtain ⟨k, v⟩ := kv
    rw [if_pos (createScopeFilter_text_pos k v rest)]
    simp only [stmtText, stmtTextAux_append, createScopeFilter_textAux]
    simp [stmtTextAux, paramCount, placeholder, List.isEmpty_cons,
      String.append_assoc, String.append_empty, String.empty_append]

theorem getDocumentByReferenceStmt_values (cfg : StoreConfig) (reference : JsValue) :
    stmtValues (getDocumentByReferenceStmt cfg reference) =
      reference :: cfg.documentScope.map (fun kv => nullCoalesce kv.2) := by
  simp only [getDocumentByReferenceStmt]
  cases hsc : cfg.documentScope with
  | nil =>
    rw [if_neg (by simp [createScopeFilter, stmtText, stmtTextAux])]
    simp [stmtValues]
  | cons kv rest =>
    obtain ⟨k, v⟩ := kv
    rw [if_pos (createScopeFilter_text_pos k v rest)]
    rw [stmtValues_append, stmtValues_append, createScopeFilter_values]
    rfl

theorem deleteStmt_text (cfg : StoreConfig) (document : JsValue) :
    stmtText (deleteStmt cfg document) = deleteSpecText cfg := by
  simp only [deleteStmt, deleteSpecText]
  cases hsc : cfg.documentScope with
  | nil =>
    rw [if_neg (by simp [createScopeFilter, stmtText, stmtTextAux])]
    simp [stmtText, stmtTextAux, placeholder, String.append_assoc,
      String.append_empty, String.empty_append]
  | cons kv rest =>
    obtain ⟨k, v⟩ := kv
    rw [if_pos (createScopeFilter_text_pos k v rest)]
    simp only [stmtText, stmtTextAux_append, createScopeFilter_textAux]
    simp [stmtTextAux, paramCount, placeholder, List.isEmpty_cons,
      String.append_assoc, String.append_empty, String.empty_append]

theorem deleteStmt_values (cfg : StoreConfig) (document : JsValue) :
    stmtValues (deleteStmt cfg document) =
      document :: cfg.documentScope.map (fun kv => nullCoalesce kv.2) := by
  simp only [deleteStmt]
  cases hsc : cfg.documentScope with
  | nil =>
    rw [if_neg (by simp [createScopeFilter, stmtText, stmtTextAux])]
    simp [stmtValues]
  | cons kv rest =>
    obtain ⟨k, v⟩ := kv
    rw [if_pos (createScopeFilter_text_pos k v rest)]
    rw [stmtValues_append, stmtValues_append, createScopeFilter_values]
    rfl

theorem getDocumentsStmt_text (cfg : StoreConfig) :
    stmtText (getDocumentsStmt cfg) = getDocumentsSpecText cfg := by
  simp only [getDocumentsStmt, getDocumentsSpecText]
  cases hsc : cfg.documentScope with
  | nil =>
    rw [if_neg (by simp [createScopeFilter, stmtText, stmtTextAux])]
    simp [stmtText, stmtTextAux, String.append_assoc, String.append_empty,
      String.empty_append]
  | cons kv rest =>
    obtain ⟨k, v⟩ := kv
    rw [if_pos (createScopeFilter_text_pos k v rest)]
    simp only [stmtText, stmtTextAux_append, createScopeFilter_textAux]
    simp [stmtTextAux, paramCount, List.isEmpty_cons,
      String.append_assoc, String.append_empty, String.empty_append]

theorem getDocumentsStmt_values (cfg : StoreConfig) :
    stmtValues (getDocumentsStmt cfg) =
      cfg.documentScope.map (fun kv => nullCoalesce kv.2) := by
  simp only [getDocumentsStmt]
  cases hsc : cfg.documentScope with
  | nil =>
    rw [if_neg (by simp [createScopeFilter, stmtText, stmtTextAux])]
    simp [stmtValues]
  | cons kv rest =>
    obtain ⟨k, v⟩ := kv
    rw [if_pos (createScopeFilter_text_pos k v rest)]
    rw [stmtValues_append, stmtValues_append, createScopeFilter_values]
    rfl

/-- `createScopeFilter_values`, stated on the unfolded `filterMap` form. -/
theorem filterMap_param_scopeFilter (scope : ScopeMap) :
    List.filterMap (fun f => match f with | Frag.param v => some v | _ => none)
      (createScopeFilter scope) = scope.map (fun kv => nullCoalesce kv.2) :=
  createScopeFilter_values scope

theorem stmtTextAux_scopeFilter_append (scope : ScopeMap) (tail : Stmt) (n : Nat) :
    stmtTextAux (createScopeFilter scope ++ tail) n =
      joinSep " AND " (scopeClauses n scope) ++ stmtTextAux tail (n + scope.length) := by
  rw [stmtTextAux_append, createScopeFilter_textAux, paramCount_createScopeFilter]

theorem queryStmt_text (cfg : StoreConfig) (op : String) (vector : List JsNum)
    (documents : Option (List JsValue)) (limit offset : Nat) :
    stmtText (queryStmt cfg op vector documents limit offset) =
      querySpecText cfg op documents.isSome := by
  have hcond : ¬ (0 < (stmtText (createScopeFilter ([] : ScopeMap))).length) := by decide
  simp only [queryStmt, queryFilters, querySpecText]
  cases hsc : cfg.embeddingScope with
  | nil =>
    rw [if_neg hcond]
    cases documents with
    | none =>
      simp only [List.nil_append, List.append_nil, List.isEmpty_nil, if_true,
        Option.isSome_none, Bool.false_eq_true, if_false]
      simp only [stmtText, stmtTextAux_append, stmtTextAux, paramCount, placeholder,
        List.length_nil, Nat.zero_add, Nat.add_zero, Nat.reduceAdd,
        String.append_assoc, String.append_empty, String.empty_append]
    | some docs =>
      simp only [List.nil_append, List.append_nil, List.isEmpty_cons,
        Bool.false_eq_true, if_false, List.isEmpty_nil, if_true,
        Option.isSome_some, andJoinFrags, queryDocFilterFrags]
      simp only [stmtText, stmtTextAux_append, stmtTextAux, paramCount, placeholder,
        List.length_nil, Nat.zero_add, Nat.add_zero, Nat.reduceAdd,
        String.append_assoc, String.append_empty, String.empty_append]
  | cons kv rest =>
    obtain ⟨k0, v0⟩ := kv
    rw [if_pos (createScopeFilter_text_pos k0 v0 rest)]
    cases documents with
    | none =>
      simp only [List.nil_append, List.append_nil, List.isEmpty_cons,
        Bool.false_eq_true, if_false, Option.isSome_none, andJoinFrags]
      simp only [stmtText, stmtTextAux_append, createScopeFilter_textAux,
        paramCount_append, paramCount_createScopeFilter]
      simp only [stmtTextAux, paramCount, placeholder, List.length_cons,
        Nat.zero_add, Nat.add_zero, Nat.reduceAdd,
        String.append_assoc, String.append_empty, String.empty_append]
      ring_nf
    | some docs =>
      simp only [List.append_assoc, List.cons_append, List.singleton_append,
        List.nil_append, List.append_nil, List.isEmpty_cons, Bool.false_eq_true,
        if_false, Option.isSome_some, if_true, andJoinFrags, queryDocFilterFrags]
      rw [show createScopeFilter ((k0, v0) :: rest)
          = createScopeFilter ((k0, v0) :: rest) from rfl]
      generalize hg : createScopeFilter ((k0, v0) :: rest) = F
      simp only [stmtText, stmtTextAux, placeholder, Nat.zero_add, Nat.add_zero,
        Nat.reduceAdd, String.append_assoc, String.append_empty, String.empty_append]
      rw [stmtTextAux_append, ← hg, createScopeFilter_textAux,
        paramCount_createScopeFilter]
      simp only [stmtTextAux, placeholder, List.length_cons, Nat.zero_add,
        Nat.add_zero, Nat.reduceAdd, String.append_assoc, String.append_empty,
        String.empty_append]
      ring_nf

theorem queryStmt_values (cfg : StoreConfig) (op : String) (vector : List JsNum)
    (documents : Option (List JsValue)) (limit offset : Nat) :
    stmtValues (queryStmt cfg op vector documents limit offset) =
      JsValue.vstr (serializeVector vector) ::
        (cfg.embeddingScope.map (fun kv => nullCoalesce kv.2) ++
          (match documents with
           | some docs => [JsValue.varr docs]
           | none => []) ++
          [JsValue.vnum (JsNum.mk (toString limit)),
           JsValue.vnum (JsNum.mk (toString offset))]) := by
  have hcond : ¬ (0 < (stmtText (createScopeFilter ([] : ScopeMap))).length) := by decide
  simp only [queryStmt, queryFilters]
  cases hsc : cfg.embeddingScope with
  | nil =>
    rw [if_neg hcond]
    cases documents with
    | none =>
      simp only [List.nil_append, List.append_nil, List.isEmpty_nil, if_true,
        List.map_nil]
      simp only [stmtValues_append, stmtValues, List.filterMap]
    | some docs =>
      simp only [List.nil_append, List.append_nil, List.isEmpty_cons,
        Bool.false_eq_true, if_false, andJoinFrags, queryDocFilterFrags,
        List.map_nil]
      simp only [stmtValues_append, stmtValues, List.filterMap]
      rfl
  | cons kv rest =>
    obtain ⟨k0, v0⟩ := kv
    rw [if_pos (createScopeFilter_text_pos k0 v0 rest)]
    cases documents with
    | none =>
      simp only [List.nil_append, List.append_nil, List.isEmpty_cons,
        Bool.false_eq_true, if_false, andJoinFrags]
      simp only [stmtValues_append, createScopeFilter_values]
      simp [stmtValues]
    | some docs =>
      simp only [List.nil_append, List.append_nil, List.isEmpty_cons,
        Bool.false_eq_true, if_false, andJoinFrags, queryDocFilterFrags]
      simp only [stmtValues_append, createScopeFilter_values]
      simp [stmtValues, filterMap_param_scopeFilter]

theorem splitCommas_ne_nil (cs : List Char) : splitCommas cs ≠ [] := by
  induction cs with
  | nil => simp [splitCommas]
  | cons c rest ih =>
    by_cases h : c = ','
    · simp [splitCommas, h]
    · simp only [splitCommas, if_neg h]
      cases hs : splitCommas rest with
      | nil => simp
      | cons t ts => simp

theorem checkExpDigits_no_comma (cs : List Char) (h : checkExpDigits cs = true) :
    ',' ∉ cs := by
  intro hmem
  simp only [checkExpDigits, Bool.and_eq_true, Bool.not_eq_true',
    List.all_eq_true] at h
  obtain ⟨hne, hall⟩ := h
  cases cs with
  | nil => simp at hmem
  | cons c rest =>
    by_cases hc : (c = '+' || c = '-') = true
    · rw [show stripSign (c :: rest) = rest from by simp [stripSign, hc]] at hall
      rcases List.mem_cons.mp hmem with h1 | h1
      · rw [← h1] at hc
        exact absurd hc (by decide)
      · exact absurd (hall _ h1) (by decide)
    · rw [show stripSign (c :: rest) = c :: rest from by simp [stripSign, hc]] at hall
      exact absurd (hall _ hmem) (by decide)

theorem checkExpPart_no_comma (cs : List Char) (h : checkExpPart cs = true) :
    ',' ∉ cs := by
  intro hmem
  cases cs with
  | nil => simp at hmem
  | cons c rest =>
    simp only [checkExpPart, Bool.and_eq_true] at h
    obtain ⟨hc, hd⟩ := h
    rcases List.mem_cons.mp hmem with h1 | h1
    · rw [← h1] at hc
      exact absurd hc (by decide)
    · exact checkExpDigits_no_comma rest hd h1

theorem checkFrac_no_comma (cs : List Char) (h : checkFrac cs = true) :
    ',' ∉ cs := by
  intro hmem
  cases cs with
  | nil => simp at hmem
  | cons c rest =>
    by_cases hc : c = '.'
    · rw [show checkFrac (c :: rest) = (!(rest.takeWhile Char.isDigit).isEmpty &&
          checkExpPart (rest.dropWhile Char.isDigit)) from by
            simp [checkFrac, hc]] at h
      simp only [Bool.and_eq_true] at h
      rcases List.mem_cons.mp hmem with h1 | h1
      · rw [← h1] at hc
        exact absurd hc (by decide)
      · rw [← List.takeWhile_append_dropWhile (p := Char.isDigit) (l := rest)] at h1
        rcases List.mem_append.mp h1 with h2 | h2
        · exact absurd (List.mem_takeWhile_imp h2) (by decide)
        · exact checkExpPart_no_comma _ h.2 h2
    · rw [show checkFrac (c :: rest) = checkExpPart (c :: rest) from by
          simp [checkFrac, hc]] at h
      exact checkExpPart_no_comma _ h hmem

theorem checkIntPart_no_comma (cs : List Char) (h : checkIntPart cs = true) :
    ',' ∉ cs := by
  intro hmem
  cases cs with
  | nil => simp at hmem
  | cons c rest =>
    by_cases hc : c = '0'
    · rw [show checkIntPart (c :: rest) = checkFrac rest from by
          simp [checkIntPart, hc]] at h
      rcases List.mem_cons.mp hmem with h1 | h1
      · rw [← h1] at hc
        exact absurd hc (by decide)
      · exact checkFrac_no_comma rest h h1
    · rw [show checkIntPart (c :: rest) = (c.isDigit &&
          checkFrac (rest.dropWhile Char.isDigit)) from by
            simp [checkIntPart, hc]] at h
      simp only [Bool.and_eq_true] at h
      rcases List.mem_cons.mp hmem with h1 | h1
      · rw [← h1] at h
        exact absurd h.1 (by decide)
      · rw [← List.takeWhile_append_dropWhile (p := Char.isDigit) (l := rest)] at h1
        rcases List.mem_append.mp h1 with h2 | h2
        · exact absurd (List.mem_takeWhile_imp h2) (by decide)
        · exact checkFrac_no_comma _ h.2 h2

theorem isJsonNumberToken_no_comma (cs : List Char)
    (h : isJsonNumberToken cs = true) : ',' ∉ cs := by
  intro hmem
  cases cs with
  | nil => simp at hmem
  | cons c rest =>
    by_cases hc : c = '-'
    · rw [show isJsonNumberToken (c :: rest) = checkIntPart rest from by
          simp [isJsonNumberToken, hc]] at h
      rcases List.mem_cons.mp hmem with h1 | h1
      · rw [← h1] at hc
        exact absurd hc (by decide)
      · exact checkIntPart_no_comma rest h h1
    · rw [show isJsonNumberToken (c :: rest) = checkIntPart (c :: rest) from by
          simp [isJsonNumberToken, hc]] at h
      exact checkIntPart_no_comma _ h hmem

theorem isJsonNumberToken_ne_nil (cs : List Char)
    (h : isJsonNumberToken cs = true) : cs ≠ [] := by
  intro he
  subst he
  simp [isJsonNumberToken] at h

theorem splitCommas_prepend (t : List Char) (cs : List Char) (h : ',' ∉ t) :
    splitCommas (t ++ cs) = List.modifyHead (fun x => t ++ x) (splitCommas cs) := by
  induction t with
  | nil =>
    rw [List.nil_append]
    cases hs : splitCommas cs with
    | nil => exact absurd hs (splitCommas_ne_nil cs)
    | cons s ss => simp [List.modifyHead]
  | cons c t' ih =>
    have hc : c ≠ ',' := fun he => h (he ▸ List.mem_cons_self c t')
    have ht' : ',' ∉ t' := fun hm => h (List.mem_cons_of_mem c hm)
    rw [List.cons_append]
    rw [show splitCommas (c :: (t' ++ cs)) = (match splitCommas (t' ++ cs) with
        | t :: ts => (c :: t) :: ts
        | [] => [[c]]) from by simp [splitCommas, hc]]
    rw [ih ht']
    cases hs : splitCommas cs with
    | nil => exact absurd hs (splitCommas_ne_nil cs)
    | cons s ss => simp [List.modifyHead]

theorem splitCommas_intercalate (ts : List (List Char)) (hne : ts ≠ [])
    (h : ∀ t ∈ ts, ',' ∉ t) : splitCommas (intercalateCommas ts) = ts := by
  induction ts with
  | nil => exact absurd rfl hne
  | cons t rest ih =>
    cases rest with
    | nil =>
      rw [show intercalateCommas [t] = t ++ [] from by simp [intercalateCommas]]
      rw [splitCommas_prepend t [] (h t (List.mem_cons_self t []))]
      simp [splitCommas, List.modifyHead]
    | cons u rest' =>
      rw [show intercalateCommas (t :: u :: rest')
          = t ++ ',' :: intercalateCommas (u :: rest') from rfl]
      rw [splitCommas_prepend t _ (h t (List.mem_cons_self t _))]
      rw [show splitCommas (',' :: intercalateCommas (u :: rest'))
          = [] :: splitCommas (intercalateCommas (u :: rest')) from by
            simp [splitCommas]]
      rw [ih (by simp) (fun x hx => h x (List.mem_cons_of_mem t hx))]
      simp [List.modifyHead]

theorem joinRenders_data (v : List JsNum) :
    (joinRenders v).data = intercalateCommas (v.map (fun n => n.render.data)) := by
  induction v with
  | nil => rfl
  | cons n rest ih =>
    cases rest with
    | nil => rfl
    | cons m rest' =>
      rw [show joinRenders (n :: m :: rest')
          = n.render ++ "," ++ joinRenders (m :: rest') from rfl]
      rw [show intercalateCommas ((n :: m :: rest').map (fun x => x.render.data))
          = n.render.data ++ ',' :: intercalateCommas ((m :: rest').map (fun x => x.render.data)) from rfl]
      rw [show (n.render ++ "," ++ joinRenders (m :: rest')).data
          = n.render.data ++ (",".data ++ (joinRenders (m :: rest')).data) from by
            simp [String.data_append]]
      rw [ih]
      rfl

theorem serializeVector_data (v : List JsNum) :
    (serializeVector v).data
      = '[' :: (intercalateCommas (v.map (fun n => n.render.data)) ++ [']']) := by
  rw [show serializeVector v = "[" ++ joinRenders v ++ "]" from rfl]
  rw [show ("[" ++ joinRenders v ++ "]").data
      = "[".data ++ ((joinRenders v).data ++ "]".data) from by simp [String.data_append]]
  rw [joinRenders_data]
  rfl

theorem jsonParse_serializeVector (v : List JsNum)
    (h : ∀ n ∈ v, isJsonNumberToken n.render.data = true) :
    jsonParseNumArray (serializeVector v) = some v := by
  rw [show jsonParseNumArray (serializeVector v)
      = jsonParseNumArrayChars ((serializeVector v).data) from rfl]
  rw [serializeVector_data]
  cases v with
  | nil =>
    simp [intercalateCommas, jsonParseNumArrayChars, List.getLast?_concat,
      List.dropLast_concat]
  | cons n rest =>
    have htoks : ∀ t ∈ (n :: rest).map (fun x => x.render.data), ',' ∉ t := by
      intro t ht
      rcases List.mem_map.mp ht with ⟨x, hx, hxe⟩
      exact hxe ▸ isJsonNumberToken_no_comma _ (h x hx)
    have hinterior : intercalateCommas ((n :: rest).map (fun x => x.render.data)) ≠ [] := by
      cases rest with
      | nil =>
        simp only [List.map_cons, List.map_nil, intercalateCommas]
        exact isJsonNumberToken_ne_nil _ (h n (List.mem_cons_self n []))
      | cons m rest' => simp [intercalateCommas]
    simp only [jsonParseNumArrayChars]
    rw [if_pos (List.getLast?_concat _)]
    rw [List.dropLast_concat]
    have hempty : (intercalateCommas ((n :: rest).map (fun x => x.render.data))).isEmpty = false := by
      cases hic : intercalateCommas ((n :: rest).map (fun x => x.render.data)) with
      | nil => exact absurd hic hinterior
      | cons a as => rfl
    rw [hempty]
    simp only [Bool.false_eq_true, if_false]
    rw [splitCommas_intercalate ((n :: rest).map (fun x => x.render.data))
      (by simp) htoks]
    have hall : (((n :: rest).map (fun x => x.render.data)).all
        (fun t => isJsonNumberToken t)) = true := by
      rw [List.all_eq_true]
      intro t ht
      rcases List.mem_map.mp ht with ⟨x, hx, hxe⟩
      exact hxe ▸ h x hx
    rw [if_pos hall]
    rw [List.map_map]
    rw [show ((fun t => JsNum.mk (String.mk t)) ∘ fun x : JsNum => x.render.data)
        = id from rfl]
    rw [List.map_id]

theorem recordMerge_disjoint (a b : ScopeMap)
    (h : ∀ k, k ∈ a.map Prod.fst → k ∉ b.map Prod.fst) :
    recordMerge a b = a ++ b := by
  unfold recordMerge
  congr 1
  · rw [show a.map (fun kv => (kv.1, (lookupRecord b kv.1).getD kv.2))
        = a.map (fun kv => kv) from ?_]
    · simp
    apply List.map_congr_left
    intro kv hkv
    have hnone : lookupRecord b kv.1 = none := by
      unfold lookupRecord
      rw [List.find?_eq_none.mpr]
      · rfl
      intro x hx hpx
      have hx1 : x.1 = kv.1 := by
        have := of_decide_eq_true hpx
        exact this
      exact h kv.1 (List.mem_map.mpr ⟨kv, hkv, rfl⟩)
        (List.mem_map.mpr ⟨x, hx, hx1⟩)
    rw [hnone]
    rfl
  · apply List.filter_eq_self.mpr
    intro kv hkv
    rw [show (a.any (fun kv2 => kv2.1 == kv.1)) = false from ?_]
    · rfl
    apply List.any_eq_false.mpr
    intro x hx hpx
    have hx1 : x.1 = kv.1 := of_decide_eq_true hpx
    exact h kv.1 (List.mem_map.mpr ⟨x, hx, hx1⟩)
      (List.mem_map.mpr ⟨kv, hkv, rfl⟩)

theorem recordMerge_override (a b : ScopeMap) (k : String) (v : JsValue)
    (ha : k ∈ a.map Prod.fst) (hb : lookupRecord b k = some v) :
    (k, v) ∈ recordMerge a b := by
  unfold recordMerge
  apply List.mem_append_left
  rcases List.mem_map.mp ha with ⟨kv, hkv, hk⟩
  apply List.mem_map.mpr
  refine ⟨kv, hkv, ?_⟩
  rw [hk, hb]
  rfl

theorem recordMerge_keys (a b : ScopeMap) :
    (recordMerge a b).map Prod.fst =
      a.map Prod.fst ++
        (b.filter (fun kv => !(a.any (fun kv2 => kv2.1 == kv.1)))).map Prod.fst := by
  simp [recordMerge]

theorem scopeClauses_length (n : Nat) (scope : ScopeMap) :
    (scopeClauses n scope).length = scope.length := by
  induction scope generalizing n with
  | nil => rfl
  | cons kv rest ih =>
    obtain ⟨k, v⟩ := kv
    simp [scopeClauses, ih]

theorem createScopeFilter_text_empty_iff (scope : ScopeMap) :
    stmtText (createScopeFilter scope) = "" ↔ scope = [] := by
  constructor
  · intro h
    cases scope with
    | nil => rfl
    | cons kv rest =>
      obtain ⟨k, v⟩ := kv
      have hpos := createScopeFilter_text_pos k v rest
      rw [h] at hpos
      exact absurd hpos (by decide)
  · intro h
    subst h
    rfl

theorem jsJoinList_map_vnum (v : List JsNum) :
    jsJoinList (v.map JsValue.vnum) = joinRenders v := by
  induction v with
  | nil => rfl
  | cons n rest ih =>
    cases rest with
    | nil => rfl
    | cons m rest' =>
      rw [show (n :: m :: rest').map JsValue.vnum
          = JsValue.vnum n :: JsValue.vnum m :: rest'.map JsValue.vnum from rfl]
      rw [show jsJoinList (JsValue.vnum n :: JsValue.vnum m :: rest'.map JsValue.vnum)
          = jsJoinElem (JsValue.vnum n) ++ "," ++
            jsJoinList (JsValue.vnum m :: rest'.map JsValue.vnum) from rfl]
      rw [show joinRenders (n :: m :: rest')
          = n.render ++ "," ++ joinRenders (m :: rest') from rfl]
      rw [show ((m :: rest').map JsValue.vnum)
          = JsValue.vnum m :: rest'.map JsValue.vnum from rfl] at ih
      rw [ih]
      rfl

/-- C1: In every generated statement (scope filter, insert,
getDocumentByReference lookup, delete, getDocuments, distance query) the
rendered SQL text equals a specification text built exclusively from
`createIdentifier`-quoted table/column names, fixed keywords and `$n`
placeholders (so no data value is ever concatenated into the text), and
the bound-value list is exactly the corresponding data: scope values,
serialized record values, the primary-key reference, the serialized query
vector, the document allow-list, and limit/offset. -/
theorem C1_identifier_and_parameter_boundary :
    (∀ scope : ScopeMap,
      stmtText (createScopeFilter scope) = joinSep " AND " (scopeClauses 0 scope) ∧
      stmtValues (createScopeFilter scope) = scope.map (fun kv => nullCoalesce kv.2)) ∧
    (∀ (table : String) (object scope : ScopeMap) (mf : Option (String → String)),
      stmtText (createInsertQuery table object scope mf) =
        insertSpecText table
          ((recordMerge scope object).map
            (fun kv => createIdentifier (applyMap mf kv.1)))
          (recordMerge scope object).length ∧
      stmtValues (createInsertQuery table object scope mf) =
        (recordMerge scope object).map (fun kv => serializeValue kv.2)) ∧
    (∀ (cfg : StoreConfig) (reference : JsValue),
      stmtText (getDocumentByReferenceStmt cfg reference) = docRefSpecText cfg ∧
      stmtValues (getDocumentByReferenceStmt cfg reference) =
        reference :: cfg.documentScope.map (fun kv => nullCoalesce kv.2)) ∧
    (∀ (cfg : StoreConfig) (document : JsValue),
      stmtText (deleteStmt cfg document) = deleteSpecText cfg ∧
      stmtValues (deleteStmt cfg document) =
        document :: cfg.documentScope.map (fun kv => nullCoalesce kv.2)) ∧
    (∀ cfg : StoreConfig,
      stmtText (getDocumentsStmt cfg) = getDocumentsSpecText cfg ∧
      stmtValues (getDocumentsStmt cfg) =
        cfg.documentScope.map (fun kv => nullCoalesce kv.2)) ∧
    (∀ (cfg : StoreConfig) (op : String) (vector : List JsNum)
        (documents : Option (List JsValue)) (limit offset : Nat),
      stmtText (queryStmt cfg op vector documents limit offset) =
        querySpecText cfg op documents.isSome ∧
      stmtValues (queryStmt cfg op vector documents limit offset) =
        JsValue.vstr (serializeVector vector) ::
          (cfg.embeddingScope.map (fun kv => nullCoalesce kv.2) ++
            (match documents with
             | some docs => [JsValue.varr docs]
             | none => []) ++
            [JsValue.vnum (JsNum.mk (toString limit)),
             JsValue.vnum (JsNum.mk (toString offset))])) :=
  ⟨fun scope => ⟨createScopeFilter_text scope, createScopeFilter_values scope⟩,
   fun table object scope mf =>
     ⟨createInsertQuery_text table object scope mf,
      createInsertQuery_values table object scope mf⟩,
   fun cfg reference =>
     ⟨getDocumentByReferenceStmt_text cfg reference,
      getDocumentByReferenceStmt_values cfg reference⟩,
   fun cfg document => ⟨deleteStmt_text cfg document, deleteStmt_values cfg document⟩,
   fun cfg => ⟨getDocumentsStmt_text cfg, getDocumentsStmt_values cfg⟩,
   fun cfg op vector documents limit offset =>
     ⟨queryStmt_text cfg op vector documents limit offset,
      queryStmt_values cfg op vector documents limit offset⟩⟩

/-- C2: For every scope mapping with K entries, the scope filter's text is
the ` AND `-join of exactly K clauses, one per entry in iteration order,
each of the form `quoted_identifier = $n` (see `scopeClauses`); its bound
values are the K entry values in order, and the text is empty exactly when
K = 0. -/
theorem C2_scope_filter_shape :
    ∀ scope : ScopeMap,
      stmtText (createScopeFilter scope) = joinSep " AND " (scopeClauses 0 scope) ∧
      (scopeClauses 0 scope).length = scope.length ∧
      stmtValues (createScopeFilter scope) =
        scope.map (fun kv => nullCoalesce kv.2) ∧
      (stmtText (createScopeFilter scope) = "" ↔ scope = []) :=
  fun scope =>
    ⟨createScopeFilter_text scope, scopeClauses_length 0 scope,
     createScopeFilter_values scope, createScopeFilter_text_empty_iff scope⟩

/-- C3: The query builder maps the four supported algorithm values to
exactly the documented operators; any other algorithm value maps to no
operator, in which case `query` raises the configuration error and issues
no statement — there is no default operator to fall back to. -/
theorem C3_operator_selection :
    operatorFor "l2" = some "<->" ∧
    operatorFor "l1" = some "<+>" ∧
    operatorFor "negative_inner_product" = some "<#>" ∧
    operatorFor "cosine" = some "<=>" ∧
    (∀ alg : String, alg ≠ "l1" → alg ≠ "l2" → alg ≠ "negative_inner_product" →
      alg ≠ "cosine" → operatorFor alg = none) ∧
    (∀ (cfg : StoreConfig) (table : List EngineRow) (rowPred : EngineRow → Bool)
        (distOf : EngineRow → Rat) (vector : List JsNum)
        (documents : Option (List JsValue)) (limit offset : Nat),
      operatorFor cfg.algorithm = none →
      (queryFull cfg table rowPred distOf vector documents limit offset).1 =
        Except.error ("Unsupported distance algorithm: " ++ cfg.algorithm) ∧
      (queryFull cfg table rowPred distOf vector documents limit offset).2 = []) := by
  refine ⟨rfl, rfl, rfl, rfl, ?_, ?_⟩
  · intro alg h1 h2 h3 h4
    unfold operatorFor
    split
    · exact absurd rfl h2
    · exact absurd rfl h1
    · exact absurd rfl h3
    · exact absurd rfl h4
    · rfl
  · intro cfg table rowPred distOf vector documents limit offset hnone
    unfold queryFull
    rw [hnone]
    exact ⟨rfl, rfl⟩

/-- Witness for C3 at a concrete unsupported algorithm value. -/
theorem C3_operator_selection_witness :
    operatorFor "manhattan" = none ∧
    (queryFull ⟨"manhattan", fun c => c, [], [], "documents", "embeddings"⟩
        [] (fun _ => true) (fun _ => 0) [] none 10 0).1 =
      Except.error ("Unsupported distance algorithm: " ++ "manhattan") :=
  ⟨C3_operator_selection.2.2.2.2.1 "manhattan"
      (by decide) (by decide) (by decide) (by decide),
   (C3_operator_selection.2.2.2.2.2
      ⟨"manhattan", fun c => c, [], [], "documents", "embeddings"⟩
      [] (fun _ => true) (fun _ => 0) [] none 10 0 rfl).1⟩

/-- C4: Whenever `query` succeeds, its result stream holds at most `limit`
elements, adjacent elements have non-decreasing distances, and the buffer
is exactly the engine's rows ordered by distance first, then offset-dropped,
then limit-taken, then decoded — pagination applies after the ordering. -/
theorem C4_query_limit_and_ordering :
    ∀ (cfg : StoreConfig) (table : List EngineRow) (rowPred : EngineRow → Bool)
      (distOf : EngineRow → Rat) (vector : List JsNum)
      (documents : Option (List JsValue)) (limit offset : Nat)
      (stream : AsyncStream QueryResult),
      (queryFull cfg table rowPred distOf vector documents limit offset).1 =
        Except.ok stream →
      stream.buffer.length ≤ limit ∧
      List.Chain' (fun a b => a.distance ≤ b.distance) stream.buffer ∧
      stream.buffer =
        (((((table.filter rowPred).map
            (fun r => ResultRow.mk r.document r.text r.vectorText (distOf r))).insertionSort
            (fun a b => a.distance ≤ b.distance)).drop offset).take limit).map
          decodeResultRow := by
  intro cfg table rowPred distOf vector documents limit offset stream h
  unfold queryFull at h
  cases hop : operatorFor cfg.algorithm with
  | none => rw [hop] at h; exact absurd h (by simp)
  | some op =>
    rw [hop] at h
    simp only [Except.ok.injEq] at h
    have hbuf : stream.buffer =
        (engineDistanceQuery table rowPred distOf limit offset).map decodeResultRow := by
      rw [← h]
    refine ⟨?_, ?_, ?_⟩
    · rw [hbuf]
      rw [List.length_map]
      exact List.length_take_le _ _
    · rw [hbuf]
      apply List.Pairwise.chain'
      apply List.pairwise_map.mpr
      have hsorted : List.Pairwise (fun a b : ResultRow => a.distance ≤ b.distance)
          (((table.filter rowPred).map
            (fun r => ResultRow.mk r.document r.text r.vectorText (distOf r))).insertionSort
            (fun a b => a.distance ≤ b.distance)) :=
        List.sorted_insertionSort _ _
      exact List.Pairwise.sublist (List.take_sublist _ _)
        (List.Pairwise.sublist (List.drop_sublist _ _) hsorted)
    · rw [hbuf]
      rfl

/-- Witness for C4 at a concrete one-row table. -/
theorem C4_query_limit_and_ordering_witness :
    (AsyncStream.mk [decodeResultRow
        (ResultRow.mk JsValue.vnull "Hello" "[1]" 0)]).buffer.length ≤ 10 ∧
    List.Chain' (fun a b => a.distance ≤ b.distance)
      (AsyncStream.mk [decodeResultRow
        (ResultRow.mk JsValue.vnull "Hello" "[1]" 0)]).buffer :=
  ⟨(C4_query_limit_and_ordering
      ⟨"cosine", fun c => c, [], [], "documents", "embeddings"⟩
      [EngineRow.mk JsValue.vnull "Hello" "[1]"] (fun _ => true) (fun _ => 0)
      [] none 10 0
      (AsyncStream.mk [decodeResultRow (ResultRow.mk JsValue.vnull "Hello" "[1]" 0)])
      rfl).1,
   (C4_query_limit_and_ordering
      ⟨"cosine", fun c => c, [], [], "documents", "embeddings"⟩
      [EngineRow.mk JsValue.vnull "Hello" "[1]"] (fun _ => true) (fun _ => 0)
      [] none 10 0
      (AsyncStream.mk [decodeResultRow (ResultRow.mk JsValue.vnull "Hello" "[1]" 0)])
      rfl).2.1⟩

/-- C5: The insert builder merges scope entries first and record fields
second (JS object spread: record values override scope on key collision,
and disjoint key sets merge to scope-then-record concatenation), emits one
quoted (mapped) column name and one bound serialized value per merged entry
in merge order, serializes array values to the literal `"[v1,...,vn]"`
string before binding, and ends the text with `) RETURNING "id"`. -/
theorem C5_insert_builder :
    ∀ (table : String) (object scope : ScopeMap) (mf : Option (String → String)),
      stmtText (createInsertQuery table object scope mf) =
        insertSpecText table
          ((recordMerge scope object).map
            (fun kv => createIdentifier (applyMap mf kv.1)))
          (recordMerge scope object).length ∧
      stmtValues (createInsertQuery table object scope mf) =
        (recordMerge scope object).map (fun kv => serializeValue kv.2) ∧
      (∀ xs : List JsValue,
        serializeValue (JsValue.varr xs) =
          JsValue.vstr ("[" ++ jsJoinList xs ++ "]")) ∧
      ((∀ k, k ∈ scope.map Prod.fst → k ∉ object.map Prod.fst) →
        recordMerge scope object = scope ++ object) ∧
      (∀ (k : String) (v : JsValue), k ∈ scope.map Prod.fst →
        lookupRecord object k = some v → (k, v) ∈ recordMerge scope object) ∧
      (∃ p, stmtText (createInsertQuery table object scope mf) =
        p ++ ") RETURNING \"id\"") := by
  intro table object scope mf
  refine ⟨createInsertQuery_text table object scope mf,
    createInsertQuery_values table object scope mf,
    fun xs => rfl,
    recordMerge_disjoint scope object,
    fun k v hk hv => recordMerge_override scope object k v hk hv,
    ?_⟩
  rw [createInsertQuery_text table object scope mf]
  exact ⟨_, rfl⟩

/-- Witness for C5: a disjoint scope/record merge and a key collision,
both at concrete inputs. -/
theorem C5_insert_builder_witness :
    recordMerge [("scope", JsValue.vstr "A")] [("name", JsValue.vstr "Doc")] =
      [("scope", JsValue.vstr "A")] ++ [("name", JsValue.vstr "Doc")] ∧
    ("k", JsValue.vstr "B") ∈
      recordMerge [("k", JsValue.vstr "A")] [("k", JsValue.vstr "B")] :=
  ⟨(C5_insert_builder "documents" [("name", JsValue.vstr "Doc")]
      [("scope", JsValue.vstr "A")] none).2.2.2.1
    (by decide),
   (C5_insert_builder "embeddings" [("k", JsValue.vstr "B")]
      [("k", JsValue.vstr "A")] none).2.2.2.2.1 "k" (JsValue.vstr "B")
    (by decide) rfl⟩

/-- C6 counterexample: with an executor that returns zero rows for every
insert, `append` of one embedding completes normally — the zero-row result
of the per-embedding insert is not surfaced as an assertion failure,
contradicting the claim for `append`. -/
theorem C6_counterexample :
    appendRun ⟨"cosine", fun c => c, [], [], "documents", "embeddings"⟩
        (fun _ => Except.ok []) (JsValue.vnum (JsNum.mk "1"))
        [Embedding.mk "Hello" [JsNum.mk "1"]] = Except.ok () ∧
    appendRun ⟨"cosine", fun c => c, [], [], "documents", "embeddings"⟩
        (fun _ => Except.ok []) (JsValue.vnum (JsNum.mk "1"))
        [Embedding.mk "Hello" [JsNum.mk "1"]] ≠
      Except.error "Expected one row to be returned" := by
  refine ⟨rfl, ?_⟩
  intro h
  rw [show appendRun ⟨"cosine", fun c => c, [], [], "documents", "embeddings"⟩
      (fun _ => Except.ok []) (JsValue.vnum (JsNum.mk "1"))
      [Embedding.mk "Hello" [JsNum.mk "1"]] = Except.ok () from rfl] at h
  exact Except.noConfusion h

/-- C6 (amended): `createDocument` surfaces a zero-row or multi-row insert
result as the fatal assertion `"Expected one row to be returned"` and
returns the single row's generated key otherwise; `append`'s per-embedding
inserts never inspect the returned rows, so `append` completes normally
whenever the executor itself succeeds, whatever the row counts. -/
theorem C6_insert_row_count_handling :
    (∀ (cfg : StoreConfig) (exec : Exec JsValue) (document : ScopeMap),
      (exec (createDocumentStmt cfg document) = Except.ok [] →
        createDocumentRun cfg exec document =
          Except.error "Expected one row to be returned") ∧
      (∀ r, exec (createDocumentStmt cfg document) = Except.ok [r] →
        createDocumentRun cfg exec document = Except.ok r) ∧
      (∀ r1 r2 rest, exec (createDocumentStmt cfg document) =
          Except.ok (r1 :: r2 :: rest) →
        createDocumentRun cfg exec document =
          Except.error "Expected one row to be returned")) ∧
    (∀ (cfg : StoreConfig) (exec : Exec JsValue) (document : JsValue)
        (embs : List Embedding),
      (∀ stmt : Stmt, ∃ rows, exec stmt = Except.ok rows) →
      appendRun cfg exec document embs = Except.ok ()) := by
  constructor
  · intro cfg exec document
    refine ⟨?_, ?_, ?_⟩
    · intro h
      unfold createDocumentRun
      rw [h]
      rfl
    · intro r h
      unfold createDocumentRun
      rw [h]
      rfl
    · intro r1 r2 rest h
      unfold createDocumentRun
      rw [h]
      rfl
  · intro cfg exec document embs hok
    induction embs with
    | nil => rfl
    | cons e rest ih =>
      unfold appendRun
      obtain ⟨rows, hr⟩ := hok (appendInsertStmt cfg document e)
      rw [hr]
      exact ih

/-- Witness for the amended C6 at concrete executors. -/
theorem C6_insert_row_count_handling_witness :
    createDocumentRun ⟨"cosine", fun c => c, [], [], "documents", "embeddings"⟩
      (fun _ => Except.ok [JsValue.vnum (JsNum.mk "7")]) [("name", JsValue.vstr "Doc")] =
      Except.ok (JsValue.vnum (JsNum.mk "7")) ∧
    createDocumentRun ⟨"cosine", fun c => c, [], [], "documents", "embeddings"⟩
      (fun _ => Except.ok []) [("name", JsValue.vstr "Doc")] =
      Except.error "Expected one row to be returned" ∧
    appendRun ⟨"cosine", fun c => c, [], [], "documents", "embeddings"⟩
      (fun _ => Except.ok []) (JsValue.vnum (JsNum.mk "1"))
      [Embedding.mk "Hello" [JsNum.mk "1"]] = Except.ok () :=
  ⟨(C6_insert_row_count_handling.1
      ⟨"cosine", fun c => c, [], [], "documents", "embeddings"⟩
      (fun _ => Except.ok [JsValue.vnum (JsNum.mk "7")])
      [("name", JsValue.vstr "Doc")]).2.1 (JsValue.vnum (JsNum.mk "7")) rfl,
   (C6_insert_row_count_handling.1
      ⟨"cosine", fun c => c, [], [], "documents", "embeddings"⟩
      (fun _ => Except.ok []) [("name", JsValue.vstr "Doc")]).1 rfl,
   C6_insert_row_count_handling.2
      ⟨"cosine", fun c => c, [], [], "documents", "embeddings"⟩
      (fun _ => Except.ok []) (JsValue.vnum (JsNum.mk "1"))
      [Embedding.mk "Hello" [JsNum.mk "1"]] (fun _ => ⟨[], rfl⟩)⟩

/-- C7: `append` issues exactly one independent insert statement per input
embedding, sequentially in input order (so N embeddings mean N statements
and the empty input means zero statements), and with no transaction
wrapping a failure at the k-th element leaves exactly the first k
embeddings persisted while the error propagates. -/
theorem C7_append_sequential :
    ∀ (cfg : StoreConfig) (exec : Exec JsValue) (document : JsValue),
      (appendTrace cfg exec document [] = [] ∧
       appendRun cfg exec document [] = Except.ok () ∧
       appendPersisted cfg exec document [] = []) ∧
      (∀ embs : List Embedding,
        (∀ e ∈ embs, ∃ rows, exec (appendInsertStmt cfg document e) = Except.ok rows) →
        appendTrace cfg exec document embs =
          embs.map (fun e => appendInsertStmt cfg document e) ∧
        (appendTrace cfg exec document embs).length = embs.length ∧
        appendPersisted cfg exec document embs = embs ∧
        appendRun cfg exec document embs = Except.ok ()) ∧
      (∀ (pre : List Embedding) (e : Embedding) (post : List Embedding) (msg : String),
        (∀ x ∈ pre, ∃ rows, exec (appendInsertStmt cfg document x) = Except.ok rows) →
        exec (appendInsertStmt cfg document e) = Except.error msg →
        appendTrace cfg exec document (pre ++ e :: post) =
          (pre ++ [e]).map (fun x => appendInsertStmt cfg document x) ∧
        appendPersisted cfg exec document (pre ++ e :: post) = pre ∧
        appendRun cfg exec document (pre ++ e :: post) = Except.error msg) := by
  intro cfg exec document
  refine ⟨⟨rfl, rfl, rfl⟩, ?_, ?_⟩
  · intro embs
    induction embs with
    | nil => intro _; exact ⟨rfl, rfl, rfl, rfl⟩
    | cons e rest ih =>
      intro h
      obtain ⟨rows, hr⟩ := h e (List.mem_cons_self e rest)
      have ihh := ih (fun x hx => h x (List.mem_cons_of_mem e hx))
      refine ⟨?_, ?_, ?_, ?_⟩
      · simp only [appendTrace, hr, List.map_cons]
        rw [ihh.1]
      · simp only [appendTrace, hr, List.length_cons, ihh.2.1]
      · simp only [appendPersisted, hr]
        rw [ihh.2.2.1]
      · simp only [appendRun, hr]
        exact ihh.2.2.2
  · intro pre
    induction pre with
    | nil =>
      intro e post msg _ he
      refine ⟨?_, ?_, ?_⟩
      · simp only [List.nil_append, appendTrace, he, List.map_cons, List.map_nil]
      · simp only [List.nil_append, appendPersisted, he]
      · simp only [List.nil_append, appendRun, he]
    | cons x pre' ih =>
      intro e post msg hpre he
      obtain ⟨rows, hr⟩ := hpre x (List.mem_cons_self x pre')
      have ihh := ih e post msg (fun y hy => hpre y (List.mem_cons_of_mem x hy)) he
      refine ⟨?_, ?_, ?_⟩
      · simp only [List.cons_append, List.append_eq, appendTrace, hr, List.map_cons]
        rw [ihh.1]
      · simp only [List.cons_append, List.append_eq, appendPersisted, hr]
        rw [ihh.2.1]
      · simp only [List.cons_append, List.append_eq, appendRun, hr]
        exact ihh.2.2

/-- Witness for C7: a two-element success run and a failure after a
one-element persisted prefix, at concrete inputs. -/
theorem C7_append_sequential_witness :
    (appendTrace ⟨"cosine", fun c => c, [], [], "documents", "embeddings"⟩
        (fun _ => Except.ok []) (JsValue.vnum (JsNum.mk "1"))
        [Embedding.mk "a" [JsNum.mk "1"], Embedding.mk "b" [JsNum.mk "2"]]).length = 2 ∧
    appendPersisted ⟨"cosine", fun c => c, [], [], "documents", "embeddings"⟩
        (fun _ => Except.error "boom") (JsValue.vnum (JsNum.mk "1"))
        ([] ++ Embedding.mk "a" [JsNum.mk "1"] :: []) = [] ∧
    appendRun ⟨"cosine", fun c => c, [], [], "documents", "embeddings"⟩
        (fun _ => Except.error "boom") (JsValue.vnum (JsNum.mk "1"))
        ([] ++ Embedding.mk "a" [JsNum.mk "1"] :: []) = Except.error "boom" :=
  ⟨((C7_append_sequential ⟨"cosine", fun c => c, [], [], "documents", "embeddings"⟩
      (fun _ => Except.ok []) (JsValue.vnum (JsNum.mk "1"))).2.1
      [Embedding.mk "a" [JsNum.mk "1"], Embedding.mk "b" [JsNum.mk "2"]]
      (fun _ _ => ⟨[], rfl⟩)).2.1,
   ((C7_append_sequential ⟨"cosine", fun c => c, [], [], "documents", "embeddings"⟩
      (fun _ => Except.error "boom") (JsValue.vnum (JsNum.mk "1"))).2.2
      [] (Embedding.mk "a" [JsNum.mk "1"]) [] "boom"
      (fun x hx => absurd hx (List.not_mem_nil x)) rfl).2.1,
   ((C7_append_sequential ⟨"cosine", fun c => c, [], [], "documents", "embeddings"⟩
      (fun _ => Except.error "boom") (JsValue.vnum (JsNum.mk "1"))).2.2
      [] (Embedding.mk "a" [JsNum.mk "1"]) [] "boom"
      (fun x hx => absurd hx (List.not_mem_nil x)) rfl).2.2⟩

/-- C8: `getDocumentByReference` selects by primary key AND the document
scope filter (its text is `docRefSpecText`), completes normally with the
explicit absence value `none` when the executor returns no row, and
returns the single matching document when one row comes back. -/
theorem C8_get_document_by_reference :
    ∀ (α : Type) (cfg : StoreConfig) (exec : Exec α) (reference : JsValue),
      (exec (getDocumentByReferenceStmt cfg reference) = Except.ok [] →
        getDocumentByReferenceRun cfg exec reference = Except.ok none) ∧
      (∀ d, exec (getDocumentByReferenceStmt cfg reference) = Except.ok [d] →
        getDocumentByReferenceRun cfg exec reference = Except.ok (some d)) ∧
      stmtText (getDocumentByReferenceStmt cfg reference) = docRefSpecText cfg := by
  intro α cfg exec reference
  refine ⟨?_, ?_, getDocumentByReferenceStmt_text cfg reference⟩
  · intro h
    unfold getDocumentByReferenceRun
    rw [h]
    rfl
  · intro d h
    unfold getDocumentByReferenceRun
    rw [h]
    rfl

/-- Witness for C8 at concrete executors (absence and presence). -/
theorem C8_get_document_by_reference_witness :
    getDocumentByReferenceRun ⟨"cosine", fun c => c, [], [], "documents", "embeddings"⟩
      (fun _ => Except.ok ([] : List JsValue)) (JsValue.vnum (JsNum.mk "1")) =
      Except.ok none ∧
    getDocumentByReferenceRun ⟨"cosine", fun c => c, [], [], "documents", "embeddings"⟩
      (fun _ => Except.ok [JsValue.vstr "doc"]) (JsValue.vnum (JsNum.mk "1")) =
      Except.ok (some (JsValue.vstr "doc")) :=
  ⟨(C8_get_document_by_reference JsValue
      ⟨"cosine", fun c => c, [], [], "documents", "embeddings"⟩
      (fun _ => Except.ok []) (JsValue.vnum (JsNum.mk "1"))).1 rfl,
   (C8_get_document_by_reference JsValue
      ⟨"cosine", fun c => c, [], [], "documents", "embeddings"⟩
      (fun _ => Except.ok [JsValue.vstr "doc"]) (JsValue.vnum (JsNum.mk "1"))).2.1
      (JsValue.vstr "doc") rfl⟩

/-- C9 counterexample: with a three-row result, the stream
`getDocuments` returns is backed by the complete three-element row array
at construction time — before the caller pulls a single element — so the
sequence does not pull rows one at a time from the store; only its
iteration interface is lazy. -/
theorem C9_counterexample :
    getDocumentsRun ⟨"cosine", fun c => c, [], [], "documents", "embeddings"⟩
      (fun _ => Except.ok [JsValue.vnum (JsNum.mk "1"), JsValue.vnum (JsNum.mk "2"),
        JsValue.vnum (JsNum.mk "3")]) =
      Except.ok (AsyncStream.mk [JsValue.vnum (JsNum.mk "1"),
        JsValue.vnum (JsNum.mk "2"), JsValue.vnum (JsNum.mk "3")]) ∧
    (getDocumentsRun ⟨"cosine", fun c => c, [], [], "documents", "embeddings"⟩
      (fun _ => Except.ok [JsValue.vnum (JsNum.mk "1"), JsValue.vnum (JsNum.mk "2"),
        JsValue.vnum (JsNum.mk "3")])).map (fun s => s.buffer.length) =
      Except.ok 3 :=
  ⟨rfl, rfl⟩

/-- C9 (amended): `getDocuments` and `query` expose their results through
an asynchronous-sequence interface, but both materialize the entire result
set first: a single `pool.query` resolves with every row and the full row
array is mapped before the stream is constructed, so the stream's backing
buffer is the complete decoded result list and only the iteration over it
is lazy. -/
theorem C9_streams_fully_materialized :
    (∀ (α : Type) (cfg : StoreConfig) (exec : Exec α) (rows : List α),
      exec (getDocumentsStmt cfg) = Except.ok rows →
      getDocumentsRun cfg exec = Except.ok (AsyncStream.mk rows)) ∧
    (∀ (cfg : StoreConfig) (table : List EngineRow) (rowPred : EngineRow → Bool)
        (distOf : EngineRow → Rat) (vector : List JsNum)
        (documents : Option (List JsValue)) (limit offset : Nat) (op : String),
      operatorFor cfg.algorithm = some op →
      (queryFull cfg table rowPred distOf vector documents limit offset).1 =
        Except.ok (AsyncStream.mk
          ((engineDistanceQuery table rowPred distOf limit offset).map
            decodeResultRow))) := by
  constructor
  · intro α cfg exec rows h
    unfold getDocumentsRun
    rw [h]
    rfl
  · intro cfg table rowPred distOf vector documents limit offset op hop
    unfold queryFull
    rw [hop]

/-- Witness for the amended C9 at a concrete executor and query. -/
theorem C9_streams_fully_materialized_witness :
    getDocumentsRun ⟨"cosine", fun c => c, [], [], "documents", "embeddings"⟩
      (fun _ => Except.ok [JsValue.vstr "d1", JsValue.vstr "d2"]) =
      Except.ok (AsyncStream.mk [JsValue.vstr "d1", JsValue.vstr "d2"]) ∧
    (queryFull ⟨"cosine", fun c => c, [], [], "documents", "embeddings"⟩
        [] (fun _ => true) (fun _ => 0) [] none 10 0).1 =
      Except.ok (AsyncStream.mk
        ((engineDistanceQuery [] (fun _ => true) (fun _ => 0) 10 0).map
          decodeResultRow)) :=
  ⟨C9_streams_fully_materialized.1 JsValue
      ⟨"cosine", fun c => c, [], [], "documents", "embeddings"⟩
      (fun _ => Except.ok [JsValue.vstr "d1", JsValue.vstr "d2"])
      [JsValue.vstr "d1", JsValue.vstr "d2"] rfl,
   C9_streams_fully_materialized.2
      ⟨"cosine", fun c => c, [], [], "documents", "embeddings"⟩
      [] (fun _ => true) (fun _ => 0) [] none 10 0 "<=>" rfl⟩

/-- C10: For every vector whose components render as valid JSON number
tokens, the serialization `"[" + v.join(",") + "]"` — the exact form bound
for array-typed insert values and for the query vector — decodes through
the `JSON.parse` model applied by `query`'s row decoding back to the
original vector. -/
theorem C10_vector_serialization_roundtrip :
    ∀ v : List JsNum,
      (∀ n ∈ v, isJsonNumberToken n.render.data = true) →
      jsonParseNumArray (serializeVector v) = some v ∧
      serializeValue (JsValue.varr (v.map JsValue.vnum)) =
        JsValue.vstr (serializeVector v) ∧
      (∀ r : ResultRow, r.vectorText = serializeVector v →
        (decodeResultRow r).vector = some v) := by
  intro v h
  refine ⟨jsonParse_serializeVector v h, ?_, ?_⟩
  · rw [show serializeValue (JsValue.varr (v.map JsValue.vnum))
        = JsValue.vstr ("[" ++ jsJoinList (v.map JsValue.vnum) ++ "]") from rfl]
    rw [jsJoinList_map_vnum]
    rfl
  · intro r hr
    rw [show (decodeResultRow r).vector = jsonParseNumArray r.vectorText from rfl]
    rw [hr]
    exact jsonParse_serializeVector v h

/-- Witness for C10 at a concrete vector with integer, fractional and
exponent-form components. -/
theorem C10_vector_serialization_roundtrip_witness :
    jsonParseNumArray (serializeVector [JsNum.mk "1", JsNum.mk "2.5", JsNum.mk "-3e2"]) =
      some [JsNum.mk "1", JsNum.mk "2.5", JsNum.mk "-3e2"] ∧
    serializeValue (JsValue.varr ([JsNum.mk "1", JsNum.mk "2.5",
        JsNum.mk "-3e2"].map JsValue.vnum)) =
      JsValue.vstr (serializeVector [JsNum.mk "1", JsNum.mk "2.5", JsNum.mk "-3e2"]) :=
  ⟨(C10_vector_serialization_roundtrip [JsNum.mk "1", JsNum.mk "2.5", JsNum.mk "-3e2"]
      (by decide)).1,
   (C10_vector_serialization_roundtrip [JsNum.mk "1", JsNum.mk "2.5", JsNum.mk "-3e2"]
      (by decide)).2.1⟩
